import Mathlib

/-!
Verification development for the `devwatch` filesystem watcher.

The Go sources are embedded shallowly: every definition below mirrors one
function of the repository (the Unix build of `path/filepath` is used, so the
path separator is `'/'` and `filepath.ToSlash` is the identity).  Handler
sinks, the dependency analyzer, `os.Stat`, `filepath.Walk` and the folder
observer are external collaborators; they enter as function parameters.
`Option String` models Go's `error` (`none` = `nil`).
-/

namespace DevWatch

/-! ## String primitives (Go `strings` / `path/filepath`, Unix build) -/

/-- Model of `strings.ReplaceAll(path, "\\", "/")`: the pattern is a single
character, so the call replaces every backslash with a forward slash. -/
def normSlashes (p : String) : String :=
  String.mk (p.data.map fun c => if c = '\\' then '/' else c)

/-- Worker for `strings.Split(p, "/")` on characters. -/
def splitSlashAux : List Char → List Char → List String
  | [], acc => [String.mk acc.reverse]
  | c :: rest, acc =>
    if c = '/' then String.mk acc.reverse :: splitSlashAux rest []
    else splitSlashAux rest (c :: acc)

/-- Model of `strings.Split(p, "/")`. -/
def splitSlash (p : String) : List String :=
  splitSlashAux p.data []

/-- Model of Go's string HasPrefix test: does `s` start with `pre`? -/
def strStartsWith (s pre : String) : Bool :=
  pre.data.isPrefixOf s.data

/-- Worker for `filepath.Ext`: scan the reversed character list; stop at a
path separator, return from the final dot (inclusive). -/
def filepathExtAux : List Char → List Char → String
  | [], _ => ""
  | c :: rest, acc =>
    if c = '/' then ""
    else if c = '.' then String.mk (c :: acc)
    else filepathExtAux rest (c :: acc)

/-- Model of Go `filepath.Ext(path)`: the suffix beginning at the final dot in the
final slash-separated element; empty if there is no dot. -/
def filepathExt (p : String) : String :=
  filepathExtAux p.data.reverse []

/-- Model of Go `filepath.Base(path)` on the Unix build: `"."` for the empty path,
`"/"` when the path consists only of separators, otherwise the last
path element after stripping trailing separators. -/
def filepathBase (p : String) : String :=
  if p = "" then "."
  else
    let r := p.data.reverse.dropWhile (· = '/')
    if r = [] then "/"
    else String.mk (r.takeWhile (· ≠ '/')).reverse

/-- ASCII lowering, the effect of `strings.ToLower` on `fsnotify` operation
names (which are ASCII). -/
def toLowerAscii (s : String) : String :=
  String.mk (s.data.map fun c =>
    if 'A' ≤ c ∧ c ≤ 'Z' then Char.ofNat (c.toNat + 32) else c)

/-! ## `GetFileName.go` -/

/-- The three error messages `GetFileName` can return. -/
inductive GetFileNameError where
  | emptyPath
  | trailingSeparator
  | invalidPath
  deriving DecidableEq, Repr

/-- Translation of `GetFileName(path)` from `GetFileName.go`.  The final Go check
`path[len(path)-1] == filepath.Separator` compares against `'/'` on the Unix
build and is unreachable after the trailing-separator check; it is kept for
faithfulness. -/
def GetFileName (path : String) : Except GetFileNameError String :=
  if path = "" then .error .emptyPath
  else if path.data.getLast? = some '/' ∨ path.data.getLast? = some '\\' then
    .error .trailingSeparator
  else
    let fileName := filepathBase path
    if fileName = "." ∨ fileName = "/" then .error .invalidPath
    else if path.data.getLast? = some '/' then .error .invalidPath
    else .ok fileName

/-! ## `Contain.go` and the ignore-token state -/

/-- A registered file-event handler: the four capabilities of the
`FilesEventHandlers` interface.  The sink takes
`(fileName, extension, filePath, event)` and returns `none` on success. -/
structure Handler where
  supportedExtensions : List String
  mainInputFileRelativePath : String
  unobservedFiles : List String
  newFileEvent : String → String → String → String → Option String

/-- The mutable part of `DevWatch` the claims touch: the lazily built
ignore-token set `no_add_to_watch` (`none` = nil Go map), the ordered handler
list, and the configured `UnobservedFiles` source (`none` = nil). -/
structure WatchState where
  no_add_to_watch : Option (List String)
  filesEventHandlers : List Handler
  unobservedFiles : Option (List String)

/-- Go map insertion `m[t] = true` under set semantics: the key list keeps
its old members and appends an absent key. -/
def insertToken (tokens : List String) (t : String) : List String :=
  if t ∈ tokens then tokens else tokens ++ [t]

/-- Insert every token of a list (a `for … range` loop of map insertions). -/
def insertTokens (tokens : List String) (ts : List String) : List String :=
  ts.foldl insertToken tokens

/-- The token set currently stored in the state (a nil map has no keys). -/
def stateTokens (s : WatchState) : List String :=
  s.no_add_to_watch.getD []

/-- The pure classifier of `Contain.go` run over a known token set:
exact match, then path-component match, then token-as-directory match
(`filepath.ToSlash` is the identity on the Unix build), then the
hidden-file rule exempting exactly `.git`. -/
def containPure (tokens : List String) (path : String) : Bool :=
  let normPath := normSlashes path
  if tokens.contains normPath then true
  else if (splitSlash normPath).any
      (fun part => part != "" && tokens.contains part) then true
  else if tokens.any (fun t => strStartsWith normPath (t ++ "/")) then true
  else
    let baseName := filepathBase normPath
    strStartsWith baseName "." && baseName != ".git"

/-- The lazy initialization at the top of `Contain`: a nil map is built from
the configured `UnobservedFiles` source. -/
def containInitState (s : WatchState) : WatchState :=
  match s.no_add_to_watch with
  | some _ => s
  | none => { s with no_add_to_watch := some (insertTokens [] (s.unobservedFiles.getD [])) }

/-- Translation of `(*DevWatch).Contain` from `Contain.go`: lazily initialize the token set,
then classify.  The returned state carries the possibly initialized map. -/
def Contain (s : WatchState) (path : String) : WatchState × Bool :=
  let s' := containInitState s
  (s', containPure (stateTokens s') path)

/-- Translation of `(*DevWatch).AddFilesEventHandlers` from the handler-registration file:
append the handlers, then merge each new handler's `UnobservedFiles()` into
`no_add_to_watch` (initializing a nil map first). -/
def AddFilesEventHandlers (s : WatchState) (hs : List Handler) : WatchState :=
  let tokens0 := s.no_add_to_watch.getD []
  { s with
    filesEventHandlers := s.filesEventHandlers ++ hs
    no_add_to_watch :=
      some (hs.foldl (fun acc h => insertTokens acc h.unobservedFiles) tokens0) }

/-- The ignore-set bootstrap at the top of `InitialRegistration`: initialize a
nil map, merge the configuration's `UnobservedFiles()`, then merge every
registered handler's `UnobservedFiles()`. -/
def initialRegistrationIgnoreInit (s : WatchState) : WatchState :=
  let t0 := s.no_add_to_watch.getD []
  let t1 := insertTokens t0 (s.unobservedFiles.getD [])
  let t2 := s.filesEventHandlers.foldl (fun acc h => insertTokens acc h.unobservedFiles) t1
  { s with no_add_to_watch := some t2 }

/-! ## `handleFileEvent` (`watchEvents.go`) -/

/-- The dependency analyzer `ThisFileIsMine(entryPoint, path, event)`:
`none` models an error return, `some b` a successful boolean answer. -/
def Analyzer : Type := String → String → String → Option Bool

/-- One record per executed `handler.NewFileEvent` call: the handler and the
sink's return value, in execution order. -/
def Invocation : Type := Handler × Option String

/-- The handler loop of `handleFileEvent`, carrying the two accumulators
`processedSuccessfully` and `goHandlerError` exactly as the Go loop does:
a handler whose extension list misses `extension` is skipped; for a non-delete
`.go` event the analyzer is consulted, an analyzer error skips the handler
(`continue`), a `false` answer skips the sink; an executed sink that fails
records the error in `goHandlerError` when the event is a `.go` event, and an
executed sink that succeeds sets `processedSuccessfully`. -/
def dispatchLoop (analyzer : Analyzer)
    (fileName eventName eventType extension : String)
    (isDeleteEvent isGoFileEvent : Bool) :
    List Handler → Bool → Option String →
      List Invocation × Bool × Option String
  | [], ps, ge => ([], ps, ge)
  | handler :: rest, ps, ge =>
    if handler.supportedExtensions.contains extension then
      let isMineRes : Option Bool :=
        if !isDeleteEvent && extension == ".go" then
          analyzer handler.mainInputFileRelativePath eventName eventType
        else some true
      match isMineRes with
      | none =>
        dispatchLoop analyzer fileName eventName eventType extension
          isDeleteEvent isGoFileEvent rest ps ge
      | some isMine =>
        if isMine then
          match handler.newFileEvent fileName extension eventName eventType with
          | some e =>
            let r := dispatchLoop analyzer fileName eventName eventType extension
              isDeleteEvent isGoFileEvent rest ps
              (if isGoFileEvent then some e else ge)
            ((handler, some e) :: r.1, r.2)
          | none =>
            let r := dispatchLoop analyzer fileName eventName eventType extension
              isDeleteEvent isGoFileEvent rest true ge
            ((handler, none) :: r.1, r.2)
        else
          dispatchLoop analyzer fileName eventName eventType extension
            isDeleteEvent isGoFileEvent rest ps ge
    else
      dispatchLoop analyzer fileName eventName eventType extension
        isDeleteEvent isGoFileEvent rest ps ge

/-- Result of `handleFileEvent`: the executed sink calls in order, and whether
`scheduleReload` was called. -/
structure FileEventResult where
  invocations : List Invocation
  reload : Bool

/-- Translation of `(*DevWatch).handleFileEvent` from `watchEvents.go`:
compute the extension of the event path, run the handler loop, then schedule
a reload iff (`.go` event and `goHandlerError == nil`) or (non-`.go` event
and `processedSuccessfully`). -/
def handleFileEvent (analyzer : Analyzer) (handlers : List Handler)
    (fileName eventName eventType : String) (isDeleteEvent : Bool) :
    FileEventResult :=
  let extension := filepathExt eventName
  let isGoFileEvent := extension == ".go"
  let r := dispatchLoop analyzer fileName eventName eventType extension
    isDeleteEvent isGoFileEvent handlers false none
  { invocations := r.1
    reload := (isGoFileEvent && r.2.2.isNone) || (!isGoFileEvent && r.2.1) }

/-! ## The per-file dispatch of `InitialRegistration.go` -/

/-- The handler loop run for one existing file during the initial walk:
same matching as `handleFileEvent` but the event kind is always `"create"`,
the analyzer is consulted for every `.go` file (there is no delete case), and
sink errors are only logged — the walk schedules no reload. -/
def initialRegDispatchLoop (analyzer : Analyzer)
    (fileName path extension : String) :
    List Handler → List Invocation
  | [] => []
  | handler :: rest =>
    if handler.supportedExtensions.contains extension then
      let isMineRes : Option Bool :=
        if extension == ".go" then
          analyzer handler.mainInputFileRelativePath path "create"
        else some true
      match isMineRes with
      | none => initialRegDispatchLoop analyzer fileName path extension rest
      | some isMine =>
        if isMine then
          (handler, handler.newFileEvent fileName extension path "create") ::
            initialRegDispatchLoop analyzer fileName path extension rest
        else initialRegDispatchLoop analyzer fileName path extension rest
    else initialRegDispatchLoop analyzer fileName path extension rest

/-- The file branch of `InitialRegistration`'s walk callback for one
non-ignored file `path`: dispatch a synthetic `"create"` event. -/
def initialRegFileDispatch (analyzer : Analyzer) (handlers : List Handler)
    (fileName path : String) : List Invocation :=
  initialRegDispatchLoop analyzer fileName path (filepathExt path) handlers

/-! ## The `watchEvents` loop body -/

/-- Observable actions of one pass of the event loop, in program order. -/
inductive WatchAction where
  | folderEvent (name path kind : String) (res : Option String)
  | watcherAdd (path : String) (ok : Bool)
  | sinkCall (entry fileName ext path kind : String) (res : Option String)
  | scheduleReload
  deriving DecidableEq, Repr

/-- Static configuration the loop body reads: the ignore-token set (already
initialized by `InitialRegistration`), whether a folder observer is
configured, and the registered handlers. -/
structure WatchCfg where
  tokens : List String
  hasFolderEvents : Bool
  handlers : List Handler

/-- External collaborators of the loop body: `os.Stat` (`none` = error,
`some isDir` otherwise), `filepath.Walk` enumeration (path, isDir) in
filesystem order, `watcher.Add` success, the folder observer's sink, and the
dependency analyzer. -/
structure WatchEnv where
  stat : String → Option Bool
  walk : String → List (String × Bool)
  watcherAdd : String → Bool
  folderSink : String → String → String → Option String
  analyzer : Analyzer

/-- Translation of `(*DevWatch).addDirectoryToWatcher`: skip a path already in
`reg`; a failed `watcher.Add` is logged and returned as the error; on success
the path joins `reg` and, when a folder observer exists and the base name is
valid, a `"create"` folder event is emitted.  Returns the updated registry,
the actions, and whether the returned Go error was nil. -/
def addDirectoryToWatcher (cfg : WatchCfg) (env : WatchEnv)
    (path : String) (reg : List String) :
    List String × List WatchAction × Bool :=
  if path ∈ reg then (reg, [], true)
  else if env.watcherAdd path = false then
    (reg, [WatchAction.watcherAdd path false], false)
  else
    let fActs :=
      match GetFileName path with
      | .error _ => []
      | .ok fileName =>
        if cfg.hasFolderEvents then
          [WatchAction.folderEvent fileName path "create"
            (env.folderSink fileName path "create")]
        else []
    (reg ++ [path], WatchAction.watcherAdd path true :: fActs, true)

/-- Translation of `(*DevWatch).handleDirectoryEvent`: notify the folder
observer, and on `"create"` register the directory and then walk its subtree
registering every non-excluded descendant directory. -/
def handleDirectoryEvent (cfg : WatchCfg) (env : WatchEnv)
    (fileName eventName eventType : String) : List WatchAction :=
  let fActs :=
    if cfg.hasFolderEvents then
      [WatchAction.folderEvent fileName eventName eventType
        (env.folderSink fileName eventName eventType)]
    else []
  if eventType == "create" then
    let r := addDirectoryToWatcher cfg env eventName []
    if r.2.2 then
      let w := (env.walk eventName).foldl
        (fun (st : List String × List WatchAction) entry =>
          if entry.2 && entry.1 != eventName && !(containPure cfg.tokens entry.1) then
            let a := addDirectoryToWatcher cfg env entry.1 st.1
            (a.1, st.2 ++ a.2.1)
          else st)
        (r.1, [])
      fActs ++ r.2.1 ++ w.2
    else fActs ++ r.2.1
  else fActs

/-- Actions produced by one `handleFileEvent` call: the sink calls in order
(recorded by the owning handler's entry point), then the reload scheduling. -/
def fileEventActions (fileName path kind : String) (r : FileEventResult) :
    List WatchAction :=
  r.invocations.map (fun inv =>
      WatchAction.sinkCall inv.1.mainInputFileRelativePath fileName
        (filepathExt path) path kind inv.2) ++
    (if r.reload then [WatchAction.scheduleReload] else [])

/-- Lookup in the per-path debounce map `lastEventStart`. -/
def lookupTime : List (String × Nat) → String → Option Nat
  | [], _ => none
  | (q, t) :: rest, p => if q = p then some t else lookupTime rest p

/-- Update of the per-path debounce map (Go map assignment). -/
def insertTime (m : List (String × Nat)) (p : String) (t : Nat) :
    List (String × Nat) :=
  (p, t) :: m.filter (fun e => e.1 != p)

/-- The admitted-event path of the loop body, after the debounce filter:
record `now` in the debounce map first, then lower the operation name, detect
delete events, run the stat/ignore gate for non-delete events, compute the
base name, and branch to the directory or file handler. -/
def watchAdmitted (cfg : WatchCfg) (env : WatchEnv)
    (m : List (String × Nat)) (evName evOp : String) (now : Nat) :
    List (String × Nat) × List WatchAction :=
  let m' := insertTime m evName now
  let eventType := toLowerAscii evOp
  let isDeleteEvent := eventType == "remove" || eventType == "delete"
  if isDeleteEvent then
    match GetFileName evName with
    | .error _ => (m', [])
    | .ok fileName =>
      (m', fileEventActions fileName evName eventType
        (handleFileEvent env.analyzer cfg.handlers fileName evName eventType true))
  else
    match env.stat evName with
    | none => (m', [])
    | some isDir =>
      if containPure cfg.tokens evName then (m', [])
      else
        match GetFileName evName with
        | .error _ => (m', [])
        | .ok fileName =>
          if isDir then
            (m', handleDirectoryEvent cfg env fileName evName eventType)
          else
            (m', fileEventActions fileName evName eventType
              (handleFileEvent env.analyzer cfg.handlers fileName evName eventType false))

/-- One iteration of the `watchEvents` select loop for an incoming OS event:
an event on a path whose recorded timestamp is at most 100 ms old is dropped
silently (no work, no timestamp update); otherwise the event is admitted. -/
def watchStep (cfg : WatchCfg) (env : WatchEnv)
    (m : List (String × Nat)) (evName evOp : String) (now : Nat) :
    List (String × Nat) × List WatchAction :=
  match lookupTime m evName with
  | some last =>
    if now - last ≤ 100 then (m, [])
    else watchAdmitted cfg env m evName evOp now
  | none => watchAdmitted cfg env m evName evOp now

/-! ## Lemmas about the dispatch loop -/

/-- The final `processedSuccessfully` flag is the initial flag or-ed with
"some executed sink succeeded". -/
theorem dispatchLoop_ps (a : Analyzer) (fn en et ext : String) (d g : Bool) :
    ∀ (hs : List Handler) (ps : Bool) (ge : Option String),
      (dispatchLoop a fn en et ext d g hs ps ge).2.1 =
        (ps || (dispatchLoop a fn en et ext d g hs ps ge).1.any fun inv => inv.2.isNone) := by
  intro hs
  induction hs with
  | nil => intro ps ge; simp [dispatchLoop]
  | cons h rest ih =>
    intro ps ge
    by_cases hsup : ext ∈ h.supportedExtensions
    · by_cases hga : (!d && ext == ".go") = true
      · rcases ha : a h.mainInputFileRelativePath en et with _ | b
        · simp [dispatchLoop, hsup, hga, ha, ih]
        · rcases b with _ | _
          · simp [dispatchLoop, hsup, hga, ha, ih]
          · rcases hsink : h.newFileEvent fn ext en et with _ | e <;>
              simp [dispatchLoop, hsup, hga, ha, hsink, ih]
      · rcases hsink : h.newFileEvent fn ext en et with _ | e <;>
          simp [dispatchLoop, hsup, hga, hsink, ih]
    · simp [dispatchLoop, hsup, ih]

/-- For a `.go` event the final `goHandlerError` is nil iff it started nil and
every executed sink succeeded. -/
theorem dispatchLoop_ge_go (a : Analyzer) (fn en et ext : String) (d : Bool) :
    ∀ (hs : List Handler) (ps : Bool) (ge : Option String),
      (dispatchLoop a fn en et ext d true hs ps ge).2.2.isNone =
        (ge.isNone && (dispatchLoop a fn en et ext d true hs ps ge).1.all fun inv => inv.2.isNone) := by
  intro hs
  induction hs with
  | nil => intro ps ge; simp [dispatchLoop]
  | cons h rest ih =>
    intro ps ge
    by_cases hsup : ext ∈ h.supportedExtensions
    · by_cases hga : (!d && ext == ".go") = true
      · rcases ha : a h.mainInputFileRelativePath en et with _ | b
        · simp [dispatchLoop, hsup, hga, ha, ih]
        · rcases b with _ | _
          · simp [dispatchLoop, hsup, hga, ha, ih]
          · rcases hsink : h.newFileEvent fn ext en et with _ | e <;>
              simp [dispatchLoop, hsup, hga, ha, hsink, ih]
      · rcases hsink : h.newFileEvent fn ext en et with _ | e <;>
          simp [dispatchLoop, hsup, hga, hsink, ih]
    · simp [dispatchLoop, hsup, ih]

/-- The executed handlers, in order, are exactly the registered handlers that
declare the extension and pass the ownership gate (delete events and
non-`.go` extensions bypass the analyzer; an analyzer error or a `false`
answer skips the handler). -/
theorem dispatchLoop_map_fst (a : Analyzer) (fn en et ext : String) (d g : Bool) :
    ∀ (hs : List Handler) (ps : Bool) (ge : Option String),
      (dispatchLoop a fn en et ext d g hs ps ge).1.map Prod.fst =
        hs.filter (fun h => h.supportedExtensions.contains ext &&
          (d || ext != ".go" ||
            a h.mainInputFileRelativePath en et == some true)) := by
  intro hs
  induction hs with
  | nil => intro ps ge; simp [dispatchLoop]
  | cons h rest ih =>
    intro ps ge
    by_cases hsup : ext ∈ h.supportedExtensions
    · by_cases hga : (!d && ext == ".go") = true
      · have hd : d = false := by rcases d with _ | _ <;> simp_all
        have hgo : (ext == ".go") = true := by
          rcases hb : (ext == ".go") with _ | _ <;> simp_all
        subst hd
        rcases ha : a h.mainInputFileRelativePath en et with _ | b
        · simp [dispatchLoop, hsup, hga, ha, ih, hgo, List.filter_cons, bne]
        · rcases b with _ | _
          · simp [dispatchLoop, hsup, hga, ha, ih, hgo, List.filter_cons, bne]
          · rcases hsink : h.newFileEvent fn ext en et with _ | e <;>
              simp [dispatchLoop, hsup, hga, ha, hsink, ih, hgo,
                List.filter_cons, bne]
      · have hcond : (d || ext != ".go" ||
            a h.mainInputFileRelativePath en et == some true) = true := by
          rcases d with _ | _ <;> rcases hb : (ext == ".go") with _ | _ <;>
            simp_all [bne]
        rcases hsink : h.newFileEvent fn ext en et with _ | e <;>
          simp [dispatchLoop, hsup, hga, hsink, ih, hcond, List.filter_cons]
    · simp [dispatchLoop, hsup, ih, List.filter_cons]

/-- Skipping is total: when no registered handler declares the extension, the
loop executes no sink and leaves both accumulators unchanged. -/
theorem dispatchLoop_skip_all (a : Analyzer) (fn en et ext : String) (d g : Bool)
    (hs : List Handler) (hns : ∀ h ∈ hs, ext ∉ h.supportedExtensions) :
    ∀ (ps : Bool) (ge : Option String),
      dispatchLoop a fn en et ext d g hs ps ge = ([], ps, ge) := by
  induction hs with
  | nil => intro ps ge; simp [dispatchLoop]
  | cons h rest ih =>
    intro ps ge
    have h1 : ext ∉ h.supportedExtensions := hns h (by simp)
    have h2 : ∀ h' ∈ rest, ext ∉ h'.supportedExtensions := fun h' hm =>
      hns h' (by simp [hm])
    simp [dispatchLoop, h1, ih h2]

/-- The initial-registration loop likewise executes no sink when no handler
declares the extension. -/
theorem initialRegDispatchLoop_skip_all (a : Analyzer) (fn p ext : String)
    (hs : List Handler) (hns : ∀ h ∈ hs, ext ∉ h.supportedExtensions) :
    initialRegDispatchLoop a fn p ext hs = [] := by
  induction hs with
  | nil => simp [initialRegDispatchLoop]
  | cons h rest ih =>
    have h1 : ext ∉ h.supportedExtensions := hns h (by simp)
    have h2 : ∀ h' ∈ rest, ext ∉ h'.supportedExtensions := fun h' hm =>
      hns h' (by simp [hm])
    simp [initialRegDispatchLoop, h1, ih h2]

/-! ## Concrete fixtures used by evaluation theorems and witnesses -/

/-- A handler declaring `.go` whose sink always succeeds (the test suite's
`SuccessHandler`). -/
def goSuccessHandler : Handler :=
  { supportedExtensions := [".go"]
    mainInputFileRelativePath := "src/main.go"
    unobservedFiles := []
    newFileEvent := fun _ _ _ _ => none }

/-- A handler declaring `.go` whose sink always fails (the test suite's
`ErrorHandler`). -/
def goErrorHandler : Handler :=
  { supportedExtensions := [".go"]
    mainInputFileRelativePath := "src/main.go"
    unobservedFiles := []
    newFileEvent := fun _ _ _ _ => some "compilation failed: syntax error" }

/-- The scenario-S1 configuration: no handlers registered, ignore source
yielding the five tokens of the spec's ignore-precedence test. -/
def s1State : WatchState :=
  { no_add_to_watch := none
    filesEventHandlers := []
    unobservedFiles := some [".git", ".vscode", ".exe", ".log", "_worker.js"] }

/-! ## Claim C1 — the reload gate -/

/-- C1.  A reload is scheduled by `handleFileEvent` iff either the extension
is `.go` and no executed sink returned an error, or the extension is not
`.go` and at least one executed sink succeeded.  In particular a `.go` event
on which every executed handler fails schedules no reload. -/
theorem reload_gate_iff (a : Analyzer) (H : List Handler)
    (fileName eventName eventType : String) (isDelete : Bool) :
    (handleFileEvent a H fileName eventName eventType isDelete).reload = true ↔
      ((filepathExt eventName = ".go" ∧
        ∀ inv ∈ (handleFileEvent a H fileName eventName eventType isDelete).invocations,
          inv.2 = none) ∨
       (filepathExt eventName ≠ ".go" ∧
        ∃ inv ∈ (handleFileEvent a H fileName eventName eventType isDelete).invocations,
          inv.2 = none)) := by
  by_cases hgo : filepathExt eventName = ".go"
  · have hb : (filepathExt eventName == ".go") = true := by simp [hgo]
    have hge := dispatchLoop_ge_go a fileName eventName eventType
      (filepathExt eventName) isDelete H false none
    simp only [handleFileEvent, hb, Bool.true_and, Bool.not_true, Bool.false_and,
      Bool.or_false]
    rw [hge]
    simp [hgo, List.all_eq_true, Option.isNone_iff_eq_none]
  · have hb : (filepathExt eventName == ".go") = false := by
      simp [hgo]
    have hps := dispatchLoop_ps a fileName eventName eventType
      (filepathExt eventName) isDelete false H false none
    simp only [handleFileEvent, hb, Bool.false_and, Bool.not_false, Bool.true_and,
      Bool.false_or]
    rw [hps]
    simp [hgo, List.any_eq_true, Option.isNone_iff_eq_none]

/-! ## Claim C2 — first handler fails, second succeeds, shared `.go` file -/

/-- C2.  Evaluation of `handleFileEvent` on a write event for `src/main.go`
with two handlers declaring `.go` and the same entry point, the analyzer
claiming the file for both, the first sink failing and the second
succeeding: both sinks run, yet NO reload is scheduled — the first handler's
error is recorded in `goHandlerError` and blocks the gate, contradicting the
repository's own test
`TestMultipleHandlers_FirstHandlerError_SecondHandlerSuccess`, which demands
exactly one reload. -/
theorem first_error_second_success_blocks_reload :
    (handleFileEvent (fun _ _ _ => some true) [goErrorHandler, goSuccessHandler]
      "main.go" "src/main.go" "write" false).reload = false ∧
    (handleFileEvent (fun _ _ _ => some true) [goErrorHandler, goSuccessHandler]
      "main.go" "src/main.go" "write" false).invocations.map (fun inv => inv.2) =
      [some "compilation failed: syntax error", none] :=
  ⟨rfl, rfl⟩

/-! ## Claim C3 — which handlers are invoked -/

/-- Modelled from the spec claim C3: the claimed invocation set
"h in H such that e is in h.supportedExtensions and (e is not .go or the
analyzer answers true for (h, p))", in the order of `H`; the claim applies
this to every file event, delete events included. -/
def specClaimedInvocations (a : Analyzer) (H : List Handler)
    (e p kind : String) : List Handler :=
  H.filter (fun h => h.supportedExtensions.contains e &&
    (e != ".go" || a h.mainInputFileRelativePath p kind == some true))

/-- C3, counterexample.  On a DELETE event for a `.go` file the code skips
the analyzer and invokes the handler even though the analyzer answers
`false`, so the executed-handler list (one element) differs from the claimed
set (empty). -/
theorem delete_go_bypasses_analyzer_cex :
    ¬ ((handleFileEvent (fun _ _ _ => some false) [goSuccessHandler]
        "x.go" "x.go" "remove" true).invocations.map Prod.fst =
      specClaimedInvocations (fun _ _ _ => some false) [goSuccessHandler]
        ".go" "x.go" "remove") := by
  intro hcl
  have h1 : ((handleFileEvent (fun _ _ _ => some false) [goSuccessHandler]
      "x.go" "x.go" "remove" true).invocations.map Prod.fst).length = 1 := rfl
  have h2 : (specClaimedInvocations (fun _ _ _ => some false) [goSuccessHandler]
      ".go" "x.go" "remove").length = 0 := rfl
  rw [hcl, h2] at h1
  exact absurd h1 (by decide)

/-- C3, amended.  The executed sinks are exactly the handlers declaring the
extension that pass the ownership gate, in registration order — where the
gate is bypassed for DELETE events and for non-`.go` extensions, and an
analyzer error or a `false` answer skips the handler. -/
theorem invocations_eq_filter (a : Analyzer) (H : List Handler)
    (fileName eventName eventType : String) (isDelete : Bool) :
    (handleFileEvent a H fileName eventName eventType isDelete).invocations.map Prod.fst =
      H.filter (fun h => h.supportedExtensions.contains (filepathExt eventName) &&
        (isDelete || filepathExt eventName != ".go" ||
          a h.mainInputFileRelativePath eventName eventType == some true)) := by
  simp only [handleFileEvent]
  exact dispatchLoop_map_fst a fileName eventName eventType
    (filepathExt eventName) isDelete (filepathExt eventName == ".go") H false none

/-! ## Claim C10 — extensionless files are never dispatched -/

/-- C10.  When the event path has no dotted suffix (empty computed extension)
and every handler declares only non-empty extensions, no sink runs and no
reload is scheduled, in the steady-state dispatcher and in the
initial-registration walk alike. -/
theorem empty_extension_no_dispatch (a : Analyzer) (H : List Handler)
    (fileName p kind : String) (isDelete : Bool)
    (hext : filepathExt p = "")
    (hH : ∀ h ∈ H, ∀ e ∈ h.supportedExtensions, e ≠ "") :
    (handleFileEvent a H fileName p kind isDelete).invocations = [] ∧
    (handleFileEvent a H fileName p kind isDelete).reload = false ∧
    initialRegFileDispatch a H fileName p = [] := by
  have hns : ∀ h ∈ H, "" ∉ h.supportedExtensions := by
    intro h hm hmem
    exact hH h hm "" hmem rfl
  have hd := dispatchLoop_skip_all a fileName p kind "" isDelete ("" == ".go") H hns
  refine ⟨?_, ?_, ?_⟩
  · simp only [handleFileEvent, hext]
    rw [hd]
  · simp only [handleFileEvent, hext]
    rw [hd]
    simp
  · simp only [initialRegFileDispatch, hext]
    exact initialRegDispatchLoop_skip_all a fileName p "" H hns

/-- Witness for C10 at the concrete path `Makefile` with a `.go`-only
handler. -/
theorem empty_extension_no_dispatch_witness :
    (filepathExt "Makefile" = "" ∧
      ∀ h ∈ [goSuccessHandler], ∀ e ∈ h.supportedExtensions, e ≠ "") ∧
    ((handleFileEvent (fun _ _ _ => some true) [goSuccessHandler]
        "Makefile" "Makefile" "write" false).invocations = [] ∧
      (handleFileEvent (fun _ _ _ => some true) [goSuccessHandler]
        "Makefile" "Makefile" "write" false).reload = false ∧
      initialRegFileDispatch (fun _ _ _ => some true) [goSuccessHandler]
        "Makefile" "Makefile" = []) := by
  have hH : ∀ h ∈ [goSuccessHandler], ∀ e ∈ h.supportedExtensions, e ≠ "" := by
    intro h hm e he
    rw [List.mem_singleton] at hm
    subst hm
    simp only [goSuccessHandler] at he
    rw [List.mem_singleton] at he
    subst he
    decide
  exact ⟨⟨rfl, hH⟩,
    empty_extension_no_dispatch (fun _ _ _ => some true) [goSuccessHandler]
      "Makefile" "Makefile" "write" false rfl hH⟩

/-! ## Claim C4 — the ignore-precedence table -/

/-- C4.  Evaluation of `Contain` under the scenario-S1 token set
`{.git, .vscode, .exe, .log, _worker.js}`.  Four of the five spec
expectations hold, but `/test/main.exe` is NOT matched — the classifier has
no suffix-matching mode, so the token `.exe` never matches `main.exe` —
contradicting the spec table and the repository's own tests. -/
theorem contain_s1_eval :
    (Contain s1State "/test/main.exe").2 = false ∧
    (Contain s1State "/test/.git/config").2 = true ∧
    (Contain s1State "/test/deploy/_worker.js").2 = true ∧
    (Contain s1State "/test/main.go").2 = false ∧
    (Contain s1State "/test/src/app.js").2 = false := by
  decide

/-! ## Claim C6 — the empty path -/

/-- C6, counterexample.  Under the scenario-S1 configuration (whose tokens do
not match the empty path) `Contain("")` returns `true`, not `false` as the
claim states: `filepath.Base("")` is `"."`, so the hidden-file rule fires. -/
theorem contain_empty_path_cex : (Contain s1State "").2 = true := by decide

/-- The pure classifier answers `true` on the empty path for every token
set: no split component or directory token can match, but the base name of
the empty path is `"."`, which the hidden-file rule catches. -/
theorem containPure_empty (tokens : List String) : containPure tokens "" = true := by
  simp only [containPure]
  split
  · rfl
  · split
    · rfl
    · split
      · rfl
      · decide

/-- C6, amended.  `Contain` is a total function with no error path and the
empty path returns `true` for EVERY configuration. -/
theorem contain_empty_path_true (s : WatchState) : (Contain s "").2 = true :=
  containPure_empty (stateTokens (containInitState s))

/-! ## Claim C8 — `GetFileName` and separator styles -/

/-- C8.  Evaluation of `GetFileName` at the repository's own test input
`theme\index.html` (test case "valid path backslash" of `TestGetFileName`):
on the Unix build `filepath.Base` splits only on `/`, so the call succeeds
and returns the whole string — which still contains the backslash
separator — where the test and the claim demand `index.html`. -/
theorem getFileName_backslash_eval :
    GetFileName "theme\\index.html" = Except.ok "theme\\index.html" ∧
    ("theme\\index.html").data.contains '\\' = true :=
  ⟨rfl, rfl⟩

/-! ## Claim C9 — the ignore set only accumulates -/

/-- Membership in a token list survives one Go-map insertion. -/
theorem mem_insertToken_of_mem {l : List String} {u t : String} (h : u ∈ l) :
    u ∈ insertToken l t := by
  unfold insertToken
  split
  · exact h
  · exact List.mem_append_left _ h

/-- The inserted token is a member afterwards. -/
theorem mem_insertToken_self (l : List String) (t : String) : t ∈ insertToken l t := by
  unfold insertToken
  split
  · assumption
  · exact List.mem_append_right _ (List.mem_singleton.mpr rfl)

/-- Membership survives a whole insertion loop. -/
theorem mem_insertTokens_of_mem {u : String} :
    ∀ (ts l : List String), u ∈ l → u ∈ insertTokens l ts
  | [], _, h => h
  | t :: ts, l, h => mem_insertTokens_of_mem ts (insertToken l t) (mem_insertToken_of_mem h)

/-- Every token of the inserted list is a member afterwards. -/
theorem mem_insertTokens_self {t : String} :
    ∀ (ts l : List String), t ∈ ts → t ∈ insertTokens l ts
  | [], _, h => absurd h (List.not_mem_nil _)
  | u :: ts, l, h => by
    rcases List.mem_cons.mp h with he | hm
    · subst he
      exact mem_insertTokens_of_mem ts (insertToken l t) (mem_insertToken_self l t)
    · exact mem_insertTokens_self ts (insertToken l u) hm

/-- Membership survives the per-handler unobserved-files merge loop. -/
theorem mem_handlersFold_of_mem {u : String} :
    ∀ (hs : List Handler) (acc : List String), u ∈ acc →
      u ∈ hs.foldl (fun a h => insertTokens a h.unobservedFiles) acc
  | [], _, h => h
  | h :: hs, acc, hm =>
    mem_handlersFold_of_mem hs (insertTokens acc h.unobservedFiles)
      (mem_insertTokens_of_mem _ _ hm)

/-- Every unobserved file of every merged handler is a member afterwards. -/
theorem mem_handlersFold_of_handler {u : String} {h : Handler} :
    ∀ (hs : List Handler) (acc : List String), h ∈ hs → u ∈ h.unobservedFiles →
      u ∈ hs.foldl (fun a h => insertTokens a h.unobservedFiles) acc
  | [], _, hm, _ => absurd hm (List.not_mem_nil _)
  | h' :: hs, acc, hm, hu => by
    rcases List.mem_cons.mp hm with he | hm'
    · subst he
      exact mem_handlersFold_of_mem hs _ (mem_insertTokens_self _ _ hu)
    · exact mem_handlersFold_of_handler hs _ hm' hu

/-- The lazy initialization inside `Contain` never removes a token. -/
theorem stateTokens_containInit {s : WatchState} {t : String}
    (h : t ∈ stateTokens s) : t ∈ stateTokens (containInitState s) := by
  unfold containInitState
  rcases hm : s.no_add_to_watch with _ | l
  · rw [stateTokens, hm] at h
    simp at h
  · simpa [stateTokens, hm] using h

/-- C9.  The ignore set only accumulates: `AddFilesEventHandlers` makes every
new handler's unobserved files members, and no token present beforehand is
removed by `AddFilesEventHandlers`, `Contain`, or the ignore-set bootstrap of
`InitialRegistration`. -/
theorem ignore_set_monotone (s : WatchState) (hs : List Handler) (p t : String) :
    (∀ h ∈ hs, ∀ u ∈ h.unobservedFiles,
      u ∈ stateTokens (AddFilesEventHandlers s hs)) ∧
    (t ∈ stateTokens s →
      t ∈ stateTokens (AddFilesEventHandlers s hs) ∧
      t ∈ stateTokens (Contain s p).1 ∧
      t ∈ stateTokens (initialRegistrationIgnoreInit s)) := by
  constructor
  · intro h hm u hu
    show u ∈ hs.foldl (fun a h => insertTokens a h.unobservedFiles)
      (s.no_add_to_watch.getD [])
    exact mem_handlersFold_of_handler hs _ hm hu
  · intro ht
    refine ⟨?_, ?_, ?_⟩
    · show t ∈ hs.foldl (fun a h => insertTokens a h.unobservedFiles)
        (s.no_add_to_watch.getD [])
      exact mem_handlersFold_of_mem hs _ ht
    · show t ∈ stateTokens (containInitState s)
      exact stateTokens_containInit ht
    · show t ∈ s.filesEventHandlers.foldl (fun a h => insertTokens a h.unobservedFiles)
        (insertTokens (s.no_add_to_watch.getD []) (s.unobservedFiles.getD []))
      exact mem_handlersFold_of_mem _ _ (mem_insertTokens_of_mem _ _ ht)

/-- A state and a handler exercising claim C9 at concrete values. -/
def w9State : WatchState :=
  { no_add_to_watch := some [".git", ".exe"]
    filesEventHandlers := []
    unobservedFiles := some [".git", ".vscode"] }

/-- A handler contributing two fresh ignore tokens. -/
def w9Handler : Handler :=
  { supportedExtensions := []
    mainInputFileRelativePath := ""
    unobservedFiles := ["_worker.js", "app.wasm"]
    newFileEvent := fun _ _ _ _ => none }

/-- Witness for C9 at concrete values. -/
theorem ignore_set_monotone_witness :
    (".git" ∈ stateTokens w9State) ∧
    ("_worker.js" ∈ stateTokens (AddFilesEventHandlers w9State [w9Handler])) ∧
    (".git" ∈ stateTokens (AddFilesEventHandlers w9State [w9Handler]) ∧
      ".git" ∈ stateTokens (Contain w9State "/test/app.go").1 ∧
      ".git" ∈ stateTokens (initialRegistrationIgnoreInit w9State)) :=
  ⟨by decide,
   (ignore_set_monotone w9State [w9Handler] "/test/app.go" ".git").1
     w9Handler (List.mem_singleton.mpr rfl) "_worker.js" (by decide),
   (ignore_set_monotone w9State [w9Handler] "/test/app.go" ".git").2 (by decide)⟩

/-! ## Claims C5 and C7 — debounce and the stat gate -/

/-- Whatever the admitted event goes on to do, the debounce map it leaves
behind is exactly the old map with the event's path stamped at `now`: the
timestamp is recorded before any processing. -/
theorem watchAdmitted_fst (cfg : WatchCfg) (env : WatchEnv)
    (m : List (String × Nat)) (p op : String) (now : Nat) :
    (watchAdmitted cfg env m p op now).1 = insertTime m p now := by
  simp only [watchAdmitted]
  repeat' split
  all_goals rfl

/-- Stamping a path makes it the one looked up. -/
theorem lookupTime_insertTime (m : List (String × Nat)) (p : String) (t : Nat) :
    lookupTime (insertTime m p t) p = some t := by
  simp [insertTime, lookupTime]

/-- An event outside the debounce window (or on a fresh path) is admitted. -/
theorem watchStep_admitted (cfg : WatchCfg) (env : WatchEnv)
    (m : List (String × Nat)) (p op : String) (now : Nat)
    (hadm : ∀ t, lookupTime m p = some t → ¬(now - t ≤ 100)) :
    watchStep cfg env m p op now = watchAdmitted cfg env m p op now := by
  simp only [watchStep]
  rcases hl : lookupTime m p with _ | t
  · rfl
  · show (if now - t ≤ 100 then (m, ([] : List WatchAction))
        else watchAdmitted cfg env m p op now) = watchAdmitted cfg env m p op now
    exact if_neg (hadm t hl)

/-- An event within 100 ms of the recorded timestamp of its path is dropped:
no work is performed and the timestamp is not updated. -/
theorem watchStep_drop (cfg : WatchCfg) (env : WatchEnv)
    (m : List (String × Nat)) (p op : String) (now t : Nat)
    (hl : lookupTime m p = some t) (hwin : now - t ≤ 100) :
    watchStep cfg env m p op now = (m, []) := by
  simp only [watchStep]
  rw [hl]
  exact if_pos hwin

/-- C5.  For two events on the same path where the first is admitted and the
second arrives no more than 100 ms after the first's recorded timestamp: the
admitted event stamps its arrival time into the debounce map before any
processing (the stamped map is the same for every configuration and
environment), and the second event is dropped silently — no action is
performed and the timestamp is untouched, so the surviving representative of
the burst is the first event, never the last. -/
theorem debounce_first_event_wins (cfg cfg' : WatchCfg) (env env' : WatchEnv)
    (m : List (String × Nat)) (p op op' : String) (now0 now1 : Nat)
    (hadm : ∀ t, lookupTime m p = some t → ¬(now0 - t ≤ 100))
    (hwin : now1 - now0 ≤ 100) :
    (watchStep cfg env m p op now0).1 = insertTime m p now0 ∧
    watchStep cfg' env' (watchStep cfg env m p op now0).1 p op' now1 =
      ((watchStep cfg env m p op now0).1, []) := by
  have hfst : (watchStep cfg env m p op now0).1 = insertTime m p now0 := by
    rw [watchStep_admitted cfg env m p op now0 hadm]
    exact watchAdmitted_fst cfg env m p op now0
  refine ⟨hfst, ?_⟩
  rw [hfst]
  exact watchStep_drop cfg' env' (insertTime m p now0) p op' now1 now0
    (lookupTime_insertTime m p now0) hwin

/-- A watcher configuration with no tokens, no folder observer and no
handlers. -/
def emptyCfg : WatchCfg :=
  { tokens := [], hasFolderEvents := false, handlers := [] }

/-- An environment in which every stat call fails. -/
def statFailEnv : WatchEnv :=
  { stat := fun _ => none
    walk := fun _ => []
    watcherAdd := fun _ => true
    folderSink := fun _ _ _ => none
    analyzer := fun _ _ _ => some true }

/-- Witness for C5 at concrete values: fresh path, second event 50 ms after
the first. -/
theorem debounce_first_event_wins_witness :
    ((∀ t, lookupTime [] "a.go" = some t → ¬(0 - t ≤ 100)) ∧ 50 - 0 ≤ 100) ∧
    ((watchStep emptyCfg statFailEnv [] "a.go" "WRITE" 0).1 =
        insertTime [] "a.go" 0 ∧
      watchStep emptyCfg statFailEnv
          (watchStep emptyCfg statFailEnv [] "a.go" "WRITE" 0).1 "a.go" "WRITE" 50 =
        ((watchStep emptyCfg statFailEnv [] "a.go" "WRITE" 0).1, [])) :=
  ⟨⟨by intro t h; simp [lookupTime] at h, by decide⟩,
   debounce_first_event_wins emptyCfg emptyCfg statFailEnv statFailEnv []
     "a.go" "WRITE" "WRITE" 0 50
     (by intro t h; simp [lookupTime] at h) (by decide)⟩

/-- C7, counterexample.  A non-delete event whose stat fails does NOT leave
the system as if the event never occurred: the per-path debounce timestamp
has already been recorded, so the map changes from `[]` to a stamped entry
even though no action is performed. -/
theorem stat_failure_updates_debounce_cex :
    (watchStep emptyCfg statFailEnv [] "b.txt" "WRITE" 5).1 = [("b.txt", 5)] ∧
    (watchStep emptyCfg statFailEnv [] "b.txt" "WRITE" 5).1 ≠ [] ∧
    (watchStep emptyCfg statFailEnv [] "b.txt" "WRITE" 5).2 = [] :=
  ⟨rfl, by decide, rfl⟩

/-- C7, amended.  For an admitted non-delete event whose stat fails, no
handler is invoked, no reload is scheduled and no folder action is emitted —
but the per-path debounce timestamp IS updated to the event's time, having
been recorded before the stat gate ran. -/
theorem stat_failure_drops_event_amended (cfg : WatchCfg) (env : WatchEnv)
    (m : List (String × Nat)) (p op : String) (now : Nat)
    (hadm : ∀ t, lookupTime m p = some t → ¬(now - t ≤ 100))
    (hdel : ((toLowerAscii op == "remove") || (toLowerAscii op == "delete")) = false)
    (hstat : env.stat p = none) :
    watchStep cfg env m p op now = (insertTime m p now, []) := by
  rw [watchStep_admitted cfg env m p op now hadm]
  simp [watchAdmitted, hdel, hstat]

/-- Witness for C7 at concrete values. -/
theorem stat_failure_drops_event_witness :
    (statFailEnv.stat "b.txt" = none ∧
      ((toLowerAscii "WRITE" == "remove") || (toLowerAscii "WRITE" == "delete")) = false) ∧
    watchStep emptyCfg statFailEnv [] "b.txt" "WRITE" 7 =
      (insertTime [] "b.txt" 7, []) :=
  ⟨⟨rfl, by decide⟩,
   stat_failure_drops_event_amended emptyCfg statFailEnv [] "b.txt" "WRITE" 7
     (by intro t h; simp [lookupTime] at h) (by decide) rfl⟩

end DevWatch
